import Mathlib

/-!
Verification development for the Quick-AI-Inference repository.

The repository holds two standalone Python scripts:
  * `semantic-segmentation-huggingface-api.py` (the segmentation client), and
  * `image-support-with-openai-api.py` (the vision chat client).

This file shallowly embeds their data model and operations. Network and file
I/O are modelled by passing the observable outcome (the HTTP response, or
whether the local file was readable) as an explicit argument; all pure logic
(mask decoding dispatch, color assignment, overlay painting, alpha blending,
response parsing) is translated directly from the source. Machine pixels are
`Nat` values; the numpy `astype(np.uint8)` cast of the nonnegative blend
`0.5*a + 0.5*b` truncates, which on naturals is `(a + b) / 2`.
-/

namespace QuickAI

/-- An RGB triple, as used by the palette and the overlay buffer. -/
abbrev RGB := Nat × Nat × Nat

/-- A grayscale image (a PIL mask image turned into a numpy array):
dimensions plus a pixel function row-major `pix row col`. -/
structure GrayImage where
  height : Nat
  width : Nat
  pix : Nat → Nat → Nat
deriving Inhabited

/-- An RGB image (the original image as a numpy array, or the overlay
buffer `np.zeros((height, width, 3), dtype=np.uint8)`). -/
structure RGBImage where
  height : Nat
  width : Nat
  pix : Nat → Nat → RGB
deriving Inhabited

/-- The fixed 10-color palette of `semantic-segmentation-huggingface-api.py`
(lines 25-36). -/
def palette : List RGB :=
  [ (230, 25, 75),   -- red
    (60, 180, 75),   -- green
    (255, 225, 25),  -- yellow
    (0, 130, 200),   -- blue
    (245, 130, 48),  -- orange
    (145, 30, 180),  -- purple
    (70, 240, 240),  -- cyan
    (240, 50, 230),  -- magenta
    (210, 245, 60),  -- lime
    (250, 190, 190)  -- pink
  ]

/-- Lookup in the `label_to_color` dict, modelled as an insertion-ordered
association list (Python dicts preserve insertion order). -/
def lookupColor (l : String) : List (String × RGB) → Option RGB
  | [] => none
  | (k, c) :: m => if l = k then some c else lookupColor l m

/-- Lines 79-84 of the segmentation script: if the label already has a color
reuse it, otherwise take `palette[len(label_to_color) % len(palette)]` and
record it. Returns the color used and the updated map. -/
def assignColor (label : String) (m : List (String × RGB)) : RGB × List (String × RGB) :=
  match lookupColor label m with
  | some c => (c, m)
  | none =>
    let c := palette.getD (m.length % palette.length) (0, 0, 0)
    (c, m ++ [(label, c)])

/-- The `mask` field of one segmentation result entry. A base64 string and an
already-decoded `PIL.Image` both carry the grayscale image they decode to
(base64/PNG decoding itself is outside the model); `other` covers every other
Python value (including a missing field, i.e. `None`) and carries the name
`type(mask_data)` prints as. -/
inductive MaskData where
  | b64 (decoded : GrayImage)
  | img (decoded : GrayImage)
  | other (typeName : String)

/-- One entry of the segmentation API's JSON response: `result.get("label",
"unknown")` means a missing label is read as `none` here, and the mask any
Python value. -/
structure SegResult where
  label : Option String
  mask : MaskData

/-- The mutable state of the loop in `plot_segmentation_map` (lines 56-85):
the overlay buffer, the `label_to_color` dict, and the lines printed so far. -/
structure SegState where
  overlay : RGBImage
  label_to_color : List (String × RGB)
  printed : List String

/-- Lines 75-85 for a successfully decoded mask: threshold the grayscale mask
at 128 (`mask_np > 128`), assign a color to the label, and paint the overlay
at every foreground pixel (`overlay[binary_mask] = color`). -/
def segPaint (s : SegState) (label : String) (g : GrayImage) : SegState :=
  let p := assignColor label s.label_to_color
  { s with
    overlay := { s.overlay with
      pix := fun i j => if 128 < g.pix i j then p.1 else s.overlay.pix i j }
    label_to_color := p.2 }

/-- One iteration of the `for result in segmentation_results` loop (lines
61-85): read the label with default `"unknown"`, dispatch on the mask's type,
printing a diagnostic and skipping entries of unexpected type. -/
def segStep (s : SegState) (r : SegResult) : SegState :=
  let label := r.label.getD "unknown"
  match r.mask with
  | .b64 g => segPaint s label g
  | .img g => segPaint s label g
  | .other t =>
    { s with printed := s.printed ++ ["Unexpected mask type for " ++ label ++ ": " ++ t] }

/-- The starting state of `plot_segmentation_map`: an overlay of the original
image's height and width initialized to black (line 58), an empty color map
(line 59), nothing printed yet. -/
def initState (orig : RGBImage) : SegState :=
  { overlay := { height := orig.height, width := orig.width, pix := fun _ _ => (0, 0, 0) }
    label_to_color := []
    printed := [] }

/-- Line 89 per channel: `(0.5 * orig + 0.5 * overlay).astype(np.uint8)`.
The float value `0.5*a + 0.5*b` is exact for 8-bit inputs and the uint8 cast
truncates, so each channel becomes `(a + b) / 2` in natural division. -/
def blendPixel (o v : RGB) : RGB :=
  ((o.1 + v.1) / 2, (o.2.1 + v.2.1) / 2, (o.2.2 + v.2.2) / 2)

/-- The observable output of `plot_segmentation_map`: the blended image that
is shown and saved, the legend entries (label and swatch color, line 97, in
dict order), and the printed lines. -/
structure SegOutput where
  blended : RGBImage
  legend : List (String × RGB)
  printed : List String

/-- Lines 48-103, `plot_segmentation_map`: fold the per-result loop over the
results, alpha-blend the final overlay with the original image, build the
legend from `label_to_color`, and print the save message. -/
def plot_segmentation_map (orig : RGBImage) (results : List SegResult)
    (output_path : String) : SegOutput :=
  let s := results.foldl segStep (initState orig)
  { blended := { height := orig.height, width := orig.width,
                 pix := fun i j => blendPixel (orig.pix i j) (s.overlay.pix i j) }
    legend := s.label_to_color
    printed := s.printed ++ ["Segmentation map saved as " ++ output_path] }

/-- The HTTP response the segmentation endpoint returns, as observed by
`query_image`: a status code, the body text, and the value `response.json()`
parses to (the list of segmentation results). -/
structure HttpResponse where
  status_code : Nat
  text : String
  jsonBody : List SegResult

/-- Lines 38-46, `query_image`, given the HTTP exchange's response: raise
`Exception(f"Request failed: {response.status_code}, {response.text}")` when
the status is not 200, otherwise return the parsed JSON body. The raised
exception is an `Except.error` carrying the message. -/
def query_image (resp : HttpResponse) : Except String (List SegResult) :=
  if resp.status_code ≠ 200 then
    .error ("Request failed: " ++ toString resp.status_code ++ ", " ++ resp.text)
  else
    .ok resp.jsonBody

/-- Lines 106-119, the segmentation script's `__main__` block, given the
already-opened original image and the HTTP response: on a query failure print
the exception and exit 1; otherwise print the response banner, run
`plot_segmentation_map`, print `"Done"`, and exit 0. (The `json.dumps` echo of
the response is elided; it carries no information the claims mention.)
Returns the exit code and the printed lines. -/
def segMain (orig : RGBImage) (resp : HttpResponse) : Nat × List String :=
  match query_image resp with
  | .error e => (1, [e])
  | .ok results =>
    let out := plot_segmentation_map orig results "segmentation_map.png"
    (0, ["API Response:"] ++ out.printed ++ ["Done"])

/-- The `message` object of one chat choice; `content` may be absent. -/
structure ChatMsg where
  content : Option String

/-- One element of the `choices` list; the `message` field may be absent. -/
structure ChatChoice where
  message : Option ChatMsg

/-- The parsed JSON body of the chat completion response; the `choices` key
may be absent. -/
structure ChatResponse where
  choices : Option (List ChatChoice)

/-- The body of the comprehension in `read_content` (line 54), evaluated left
to right as Python does: `choice["message"]["content"]` for each choice; a
missing `message` or `content` raises a `KeyError`, modelled as
`Except.error`, and aborts the comprehension at that element. -/
def extractChoices : List ChatChoice → Except String (List String)
  | [] => .ok []
  | choice :: cs =>
    match choice.message with
    | none => .error "KeyError: message"
    | some msg =>
      match msg.content with
      | none => .error "KeyError: content"
      | some s =>
        match extractChoices cs with
        | .error e => .error e
        | .ok rest => .ok (s :: rest)

/-- Lines 51-54 of the vision script, `read_content`: return `[]` when the
response has no `"choices"` key, otherwise the contents of the choices in
order. -/
def read_content (response_data : ChatResponse) : Except String (List String) :=
  match response_data.choices with
  | none => .ok []
  | some cs => extractChoices cs

/-- The HTTP response of the chat completions endpoint, as observed by
`make_text_image_request`: the status code and the outcome of
`response.json()` (an error when the body is not valid JSON). -/
structure OpenAIResponse where
  status_code : Nat
  json : Except String ChatResponse

/-- Lines 47-49 of the vision script: `make_text_image_request` ends with
`response_data = response.json(); return response_data` — it returns the
parsed body without ever inspecting the status code. The request construction
(prompt, base64 image, fixed model and parameters) does not influence this
return value and is ambient in the response argument. -/
def make_text_image_request (resp : OpenAIResponse) : Except String ChatResponse :=
  resp.json

/-- One observable run environment of the vision script: whether the local
image file was readable, and the transport-level outcome of the POST (an
error models a raised `requests` exception). -/
structure VisionEnv where
  fileOk : Bool
  http : Except String OpenAIResponse

/-- The numbered result lines of the vision script's main loop (lines 61-63):
`print(f"{i}\n{content}")` followed by the `"----"*10` separator. -/
def printLines : Nat → List String → List String
  | _, [] => []
  | i, c :: cs =>
    (toString i ++ "\n" ++ c) :: "----------------------------------------" :: printLines (i + 1) cs

/-- Lines 57-64, the vision script's `__main__` block: encode the image
(an unreadable file raises an uncaught `IOError`, terminating the process
with exit code 1 and no output), POST (a transport error likewise), parse the
JSON, extract the contents (a `KeyError` likewise), then print each content
with its index and a separator, print `"Done"`, and exit 0. Returns the exit
code and the printed lines. -/
def visionMain (env : VisionEnv) : Nat × List String :=
  if env.fileOk then
    match env.http with
    | .error _ => (1, [])
    | .ok resp =>
      match make_text_image_request resp with
      | .error _ => (1, [])
      | .ok response_data =>
        match read_content response_data with
        | .error _ => (1, [])
        | .ok contents => (0, printLines 0 contents ++ ["Done"])
  else
    (1, [])

/-! Spec-side definitions: these formalize the wording of the claims, to be
compared with the source-derived functions above. -/

/-- Spec-side rounding for the blend claim: `round(0.5*o + 0.5*v)` where the
exact value is `(o + v) / 2` over the rationals. For a `.5` value this `+1`
form rounds half up; note `87.5` rounds to `88` under half-up and half-even
alike, so the counterexample below is independent of the convention. -/
def specRoundBlend (o v : Nat) : Nat := (o + v + 1) / 2

/-- The claim's scenario: a 2x2 original image with every pixel (100,100,100). -/
def origC1 : RGBImage := ⟨2, 2, fun _ _ => (100, 100, 100)⟩

/-- The claim's scenario: a 2x2 grayscale mask whose top row is foreground
(255 > 128) and whose bottom row is background (0). -/
def maskC1 : GrayImage := ⟨2, 2, fun i _ => if i = 0 then 255 else 0⟩

/-- The claim's scenario run: one segmentation result labeled `"grass"` with
the top-row mask, composed over the 2x2 gray-100 image. -/
def outC1 : SegOutput :=
  plot_segmentation_map origC1 [⟨some "grass", .b64 maskC1⟩] "segmentation_map.png"

/-- Spec-side description of the final overlay: the label of the last result
(in input order) whose decoded binary mask is true at pixel `(i, j)`, if any.
Entries whose mask has an unexpected type decode to no mask and never cover a
pixel. -/
def lastCover : List SegResult → Nat → Nat → Option String
  | [], _, _ => none
  | r :: rs, i, j =>
    match lastCover rs i j with
    | some l => some l
    | none =>
      match r.mask with
      | .b64 g => if 128 < g.pix i j then some (r.label.getD "unknown") else none
      | .img g => if 128 < g.pix i j then some (r.label.getD "unknown") else none
      | .other _ => none

/-- Spec-side list of labels whose entries decode successfully, in input
order with repetitions (an entry with no `label` field reads as
`"unknown"`). -/
def decodedLabels : List SegResult → List String
  | [] => []
  | r :: rs =>
    match r.mask with
    | .b64 _ => (r.label.getD "unknown") :: decodedLabels rs
    | .img _ => (r.label.getD "unknown") :: decodedLabels rs
    | .other _ => decodedLabels rs

/-- Append a label to an accumulator unless it is already there. -/
def insertNew (acc : List String) (l : String) : List String :=
  if l ∈ acc then acc else acc ++ [l]

/-- Spec-side first-seen deduplication: the distinct labels of a list in
order of first occurrence. -/
def firstSeen (ls : List String) : List String := ls.foldl insertNew []

/-- The color-assignment part of the loop in isolation: run `assignColor`
over a list of labels, returning the color used for each label in order and
the final map. -/
def runLabels : List String → List (String × RGB) → List RGB × List (String × RGB)
  | [], m => ([], m)
  | l :: ls, m =>
    let p := assignColor l m
    let q := runLabels ls p.2
    (p.1 :: q.1, q.2)

/-! Helper lemmas about `lookupColor` and `assignColor`. -/

theorem lookupColor_mem_of_some {m : List (String × RGB)} {l : String} {c : RGB}
    (h : lookupColor l m = some c) : l ∈ m.map Prod.fst := by
  induction m with
  | nil => simp [lookupColor] at h
  | cons p m ih =>
    obtain ⟨k, v⟩ := p
    simp only [lookupColor] at h
    split at h
    · rename_i hk
      simp [hk]
    · exact List.mem_cons_of_mem _ (ih h)

theorem lookupColor_eq_none {m : List (String × RGB)} {l : String} :
    lookupColor l m = none ↔ l ∉ m.map Prod.fst := by
  induction m with
  | nil => simp [lookupColor]
  | cons p m ih =>
    obtain ⟨k, v⟩ := p
    simp only [lookupColor, List.map_cons, List.mem_cons]
    split
    · rename_i hk
      simp [hk]
    · rename_i hk
      simp [hk, ih]

theorem lookupColor_append_left {m n : List (String × RGB)} {l : String} {c : RGB}
    (h : lookupColor l m = some c) : lookupColor l (m ++ n) = some c := by
  induction m with
  | nil => simp [lookupColor] at h
  | cons p m ih =>
    obtain ⟨k, v⟩ := p
    simp only [lookupColor, List.cons_append] at h ⊢
    split at h
    · rename_i hk
      simp [hk, h]
    · rename_i hk
      simp [hk, ih h]

theorem lookupColor_append_self {m : List (String × RGB)} {l : String} (c : RGB)
    (h : lookupColor l m = none) : lookupColor l (m ++ [(l, c)]) = some c := by
  induction m with
  | nil => simp [lookupColor]
  | cons p m ih =>
    obtain ⟨k, v⟩ := p
    simp only [lookupColor, List.cons_append] at h ⊢
    split at h
    · exact absurd h (by simp)
    · rename_i hk
      simp [hk, ih h]

theorem assignColor_of_some {m : List (String × RGB)} {l : String} {c : RGB}
    (h : lookupColor l m = some c) : assignColor l m = (c, m) := by
  simp [assignColor, h]

theorem assignColor_of_none {m : List (String × RGB)} {l : String}
    (h : lookupColor l m = none) :
    assignColor l m =
      (palette.getD (m.length % palette.length) (0, 0, 0),
       m ++ [(l, palette.getD (m.length % palette.length) (0, 0, 0))]) := by
  simp [assignColor, h]

theorem assignColor_lookup_self (l : String) (m : List (String × RGB)) :
    lookupColor l (assignColor l m).2 = some (assignColor l m).1 := by
  rcases h : lookupColor l m with _ | c
  · rw [assignColor_of_none h]
    exact lookupColor_append_self _ h
  · rw [assignColor_of_some h]
    exact h

theorem assignColor_lookup_mono {m : List (String × RGB)} {l' : String} {c : RGB}
    (l : String) (h : lookupColor l' m = some c) :
    lookupColor l' (assignColor l m).2 = some c := by
  rcases h0 : lookupColor l m with _ | c0
  · rw [assignColor_of_none h0]
    exact lookupColor_append_left h
  · rw [assignColor_of_some h0]
    exact h

theorem assignColor_mem (l : String) (m : List (String × RGB)) :
    l ∈ ((assignColor l m).2).map Prod.fst :=
  lookupColor_mem_of_some (assignColor_lookup_self l m)

theorem segStep_cmap_mono {s : SegState} {l : String} {c : RGB} (r : SegResult)
    (h : lookupColor l s.label_to_color = some c) :
    lookupColor l (segStep s r).label_to_color = some c := by
  rcases r with ⟨lab, m⟩
  cases m <;> simp only [segStep, segPaint] <;>
    first
      | exact assignColor_lookup_mono _ h
      | exact h

theorem fold_cmap_mono {l : String} {c : RGB} :
    ∀ (rs : List SegResult) (s : SegState),
      lookupColor l s.label_to_color = some c →
      lookupColor l ((rs.foldl segStep s).label_to_color) = some c := by
  intro rs
  induction rs with
  | nil => intro s h; exact h
  | cons r rs ih =>
    intro s h
    exact ih (segStep s r) (segStep_cmap_mono r h)

theorem lookupColor_append_ne {m : List (String × RGB)} {l k : String} (c : RGB)
    (h : l ≠ k) : lookupColor l (m ++ [(k, c)]) = lookupColor l m := by
  induction m with
  | nil => simp [lookupColor, h]
  | cons p m ih =>
    obtain ⟨k', v⟩ := p
    simp only [lookupColor, List.cons_append]
    split
    · rfl
    · exact ih

theorem assignColor_keys (l : String) (m : List (String × RGB)) :
    ((assignColor l m).2).map Prod.fst = insertNew (m.map Prod.fst) l := by
  rcases h : lookupColor l m with _ | c
  · rw [assignColor_of_none h, insertNew, if_neg (lookupColor_eq_none.mp h)]
    simp
  · rw [assignColor_of_some h, insertNew, if_pos (lookupColor_mem_of_some h)]

theorem mem_insertNew (acc : List String) (x l : String) :
    l ∈ insertNew acc x ↔ l ∈ acc ∨ l = x := by
  unfold insertNew
  split
  · rename_i hx
    constructor
    · exact Or.inl
    · rintro (h | rfl)
      · exact h
      · exact hx
  · simp

theorem mem_foldl_insertNew :
    ∀ (ls acc : List String) (l : String),
      l ∈ ls.foldl insertNew acc ↔ l ∈ acc ∨ l ∈ ls := by
  intro ls
  induction ls with
  | nil => simp
  | cons x ls ih =>
    intro acc l
    rw [List.foldl_cons, ih, mem_insertNew, List.mem_cons]
    tauto

theorem decodedLabels_append :
    ∀ xs ys : List SegResult,
      decodedLabels (xs ++ ys) = decodedLabels xs ++ decodedLabels ys := by
  intro xs ys
  induction xs with
  | nil => rfl
  | cons r xs ih =>
    rcases r with ⟨lab, m⟩
    cases m <;> simp [decodedLabels, ih]

theorem segStep_other (s : SegState) (lab : Option String) (t : String) :
    segStep s ⟨lab, .other t⟩ =
      ⟨s.overlay, s.label_to_color,
       s.printed ++ ["Unexpected mask type for " ++ lab.getD "unknown" ++ ": " ++ t]⟩ :=
  rfl

theorem plot_blended (orig : RGBImage) (results : List SegResult) (p : String) :
    (plot_segmentation_map orig results p).blended =
      ⟨orig.height, orig.width,
       fun i j => blendPixel (orig.pix i j)
         (((results.foldl segStep (initState orig)).overlay).pix i j)⟩ :=
  rfl

theorem plot_legend (orig : RGBImage) (results : List SegResult) (p : String) :
    (plot_segmentation_map orig results p).legend =
      (results.foldl segStep (initState orig)).label_to_color :=
  rfl

theorem plot_printed (orig : RGBImage) (results : List SegResult) (p : String) :
    (plot_segmentation_map orig results p).printed =
      (results.foldl segStep (initState orig)).printed ++
        ["Segmentation map saved as " ++ p] :=
  rfl

theorem cmap_runLabels :
    ∀ (rs : List SegResult) (s : SegState),
      (rs.foldl segStep s).label_to_color =
        (runLabels (decodedLabels rs) s.label_to_color).2 := by
  intro rs
  induction rs with
  | nil => intro s; rfl
  | cons r rs ih =>
    intro s
    rcases r with ⟨lab, m⟩
    cases m with
    | b64 g => exact ih (segPaint s (lab.getD "unknown") g)
    | img g => exact ih (segPaint s (lab.getD "unknown") g)
    | other t => exact ih _

theorem runLabels_fresh :
    ∀ (ls : List String) (m : List (String × RGB)), ls.Nodup →
      (∀ l ∈ ls, lookupColor l m = none) →
      (runLabels ls m).1 = (List.range ls.length).map
        (fun k => palette.getD ((m.length + k) % palette.length) (0, 0, 0)) := by
  intro ls
  induction ls with
  | nil => intro m _ _; rfl
  | cons l ls ih =>
    intro m hnd hfresh
    have hl : lookupColor l m = none := hfresh l (List.mem_cons_self l ls)
    have hnotmem : l ∉ ls := (List.nodup_cons.mp hnd).1
    have hnd' : ls.Nodup := (List.nodup_cons.mp hnd).2
    have hfresh' : ∀ l' ∈ ls, lookupColor l'
        (m ++ [(l, palette.getD (m.length % palette.length) (0, 0, 0))]) = none := by
      intro l' hl'
      have hne : l' ≠ l := fun h => hnotmem (h ▸ hl')
      rw [lookupColor_append_ne _ hne]
      exact hfresh l' (List.mem_cons_of_mem _ hl')
    show ((assignColor l m).1 :: (runLabels ls (assignColor l m).2).1) = _
    rw [assignColor_of_none hl]
    rw [ih _ hnd' hfresh']
    have hlen : (m ++ [(l, palette.getD (m.length % palette.length) (0, 0, 0))]).length
        = m.length + 1 := by simp
    rw [hlen, List.length_cons, List.range_succ_eq_map, List.map_cons, List.map_map]
    have hfun : ((fun k => palette.getD ((m.length + k) % palette.length) (0, 0, 0)) ∘ Nat.succ)
        = fun k => palette.getD ((m.length + 1 + k) % palette.length) (0, 0, 0) := by
      funext k
      have h2 : m.length + Nat.succ k = m.length + 1 + k := by omega
      simp only [Function.comp_apply, h2]
    rw [hfun]
    have hz : m.length + 0 = m.length := Nat.add_zero _
    rw [hz]

theorem fold_overlay_lastCover :
    ∀ (rs : List SegResult) (s : SegState) (i j : Nat),
      ((rs.foldl segStep s).overlay).pix i j =
        match lastCover rs i j with
        | none => s.overlay.pix i j
        | some l =>
          (lookupColor l ((rs.foldl segStep s).label_to_color)).getD (0, 0, 0) := by
  intro rs
  induction rs with
  | nil => intro s i j; rfl
  | cons r rs ih =>
    intro s i j
    rw [List.foldl_cons, ih (segStep s r) i j]
    rcases hlast : lastCover rs i j with _ | l
    · rcases r with ⟨lab, m⟩
      cases m with
      | other t => simp [lastCover, hlast, segStep]
      | b64 g =>
        by_cases hc : 128 < g.pix i j
        · have hsome : lookupColor (lab.getD "unknown")
              ((rs.foldl segStep (segPaint s (lab.getD "unknown") g)).label_to_color) =
              some (assignColor (lab.getD "unknown") s.label_to_color).1 :=
            fold_cmap_mono rs _ (assignColor_lookup_self _ _)
          simp only [lastCover, hlast, hc, if_true, segStep]
          rw [hsome]
          simp [segPaint, hc]
        · simp [lastCover, hlast, hc, segStep, segPaint]
      | img g =>
        by_cases hc : 128 < g.pix i j
        · have hsome : lookupColor (lab.getD "unknown")
              ((rs.foldl segStep (segPaint s (lab.getD "unknown") g)).label_to_color) =
              some (assignColor (lab.getD "unknown") s.label_to_color).1 :=
            fold_cmap_mono rs _ (assignColor_lookup_self _ _)
          simp only [lastCover, hlast, hc, if_true, segStep]
          rw [hsome]
          simp [segPaint, hc]
        · simp [lastCover, hlast, hc, segStep, segPaint]
    · simp [lastCover, hlast]

theorem fold_cmap_keys :
    ∀ (rs : List SegResult) (s : SegState),
      (((rs.foldl segStep s).label_to_color).map Prod.fst) =
        (decodedLabels rs).foldl insertNew ((s.label_to_color).map Prod.fst) := by
  intro rs
  induction rs with
  | nil => intro s; rfl
  | cons r rs ih =>
    intro s
    rcases r with ⟨lab, m⟩
    cases m with
    | b64 g =>
      rw [List.foldl_cons]
      show (((rs.foldl segStep (segPaint s (lab.getD "unknown") g)).label_to_color).map Prod.fst) = _
      rw [ih (segPaint s (lab.getD "unknown") g)]
      show (decodedLabels rs).foldl insertNew
          (((assignColor (lab.getD "unknown") s.label_to_color).2).map Prod.fst) = _
      rw [assignColor_keys]
      rfl
    | img g =>
      rw [List.foldl_cons]
      show (((rs.foldl segStep (segPaint s (lab.getD "unknown") g)).label_to_color).map Prod.fst) = _
      rw [ih (segPaint s (lab.getD "unknown") g)]
      show (decodedLabels rs).foldl insertNew
          (((assignColor (lab.getD "unknown") s.label_to_color).2).map Prod.fst) = _
      rw [assignColor_keys]
      rfl
    | other t =>
      rw [List.foldl_cons]
      show (((rs.foldl segStep ⟨s.overlay, s.label_to_color,
          s.printed ++ ["Unexpected mask type for " ++ lab.getD "unknown" ++ ": " ++ t]⟩).label_to_color).map Prod.fst) = _
      rw [ih _]
      rfl

theorem segStep_printed_shift (ov : RGBImage) (cm : List (String × RGB))
    (q q' : List String) (r : SegResult) :
    (segStep ⟨ov, cm, q⟩ r).overlay = (segStep ⟨ov, cm, q'⟩ r).overlay ∧
    (segStep ⟨ov, cm, q⟩ r).label_to_color = (segStep ⟨ov, cm, q'⟩ r).label_to_color ∧
    ∃ d, (segStep ⟨ov, cm, q⟩ r).printed = q ++ d ∧
      (segStep ⟨ov, cm, q'⟩ r).printed = q' ++ d := by
  rcases r with ⟨lab, m⟩
  cases m with
  | b64 g => exact ⟨rfl, rfl, [], by simp [segStep, segPaint], by simp [segStep, segPaint]⟩
  | img g => exact ⟨rfl, rfl, [], by simp [segStep, segPaint], by simp [segStep, segPaint]⟩
  | other t => exact ⟨rfl, rfl, _, rfl, rfl⟩

theorem fold_printed_shift :
    ∀ (rs : List SegResult) (ov : RGBImage) (cm : List (String × RGB))
      (q q' : List String),
      (rs.foldl segStep ⟨ov, cm, q⟩).overlay = (rs.foldl segStep ⟨ov, cm, q'⟩).overlay ∧
      (rs.foldl segStep ⟨ov, cm, q⟩).label_to_color =
        (rs.foldl segStep ⟨ov, cm, q'⟩).label_to_color ∧
      ∃ d, (rs.foldl segStep ⟨ov, cm, q⟩).printed = q ++ d ∧
        (rs.foldl segStep ⟨ov, cm, q'⟩).printed = q' ++ d := by
  intro rs
  induction rs with
  | nil =>
    intro ov cm q q'
    exact ⟨rfl, rfl, [], by simp, by simp⟩
  | cons r rs ih =>
    intro ov cm q q'
    obtain ⟨hov, hcm, d0, hp, hp'⟩ := segStep_printed_shift ov cm q q' r
    have e1 : segStep ⟨ov, cm, q⟩ r =
        ⟨(segStep ⟨ov, cm, q⟩ r).overlay, (segStep ⟨ov, cm, q⟩ r).label_to_color, q ++ d0⟩ := by
      rw [← hp]
    have e2 : segStep ⟨ov, cm, q'⟩ r =
        ⟨(segStep ⟨ov, cm, q⟩ r).overlay, (segStep ⟨ov, cm, q⟩ r).label_to_color, q' ++ d0⟩ := by
      rw [← hp', hov, hcm]
    rw [List.foldl_cons, List.foldl_cons, e1, e2]
    obtain ⟨jov, jcm, d1, jp, jp'⟩ :=
      ih (segStep ⟨ov, cm, q⟩ r).overlay (segStep ⟨ov, cm, q⟩ r).label_to_color
        (q ++ d0) (q' ++ d0)
    exact ⟨jov, jcm, d0 ++ d1, by rw [jp, List.append_assoc], by rw [jp', List.append_assoc]⟩

/-! Claim theorems. -/

/-- C1 (counterexample): in the 2x2 scenario the claim's `round` arithmetic
fails on the blue channel of palette[0]: the exact blend value is
`0.5*100 + 0.5*75 = 87.5`, which rounds to 88 (half-up and half-even alike),
but the code's `astype(np.uint8)` truncates to 87. -/
theorem C1_round_counterexample :
    (outC1.blended.pix 0 0).2.2 = 87 ∧
    specRoundBlend 100 75 = 88 ∧
    (outC1.blended.pix 0 0).2.2 ≠ specRoundBlend 100 75 :=
  ⟨rfl, rfl, by decide⟩

/-- C1 (amended): for the 2x2 all-100 image with one `"grass"` result whose
mask marks the top row, the blend truncates: every top-row pixel equals
`trunc(0.5*100 + 0.5*c) = (100 + c) / 2` for each channel `c` of palette[0]
`(230, 25, 75)`, i.e. `(165, 62, 87)`, and every bottom-row pixel equals
`trunc(0.5*100 + 0.5*0) = 50`; `"grass"` receives palette[0] in the legend. -/
theorem C1_blend_truncation :
    outC1.blended.pix 0 0 = (165, 62, 87) ∧
    outC1.blended.pix 0 1 = (165, 62, 87) ∧
    outC1.blended.pix 1 0 = (50, 50, 50) ∧
    outC1.blended.pix 1 1 = (50, 50, 50) ∧
    blendPixel (100, 100, 100) (230, 25, 75) = (165, 62, 87) ∧
    blendPixel (100, 100, 100) (0, 0, 0) = (50, 50, 50) ∧
    outC1.legend = [("grass", (230, 25, 75))] :=
  ⟨rfl, rfl, rfl, rfl, rfl, rfl, rfl⟩

/-- C2: for every HTTP response whose status is not 200, `query_image` raises
an error whose message contains the status code and the body text, and the
script's top level prints that message and exits with code 1; for a status-200
response `query_image` returns the parsed JSON body. -/
theorem C2_query_image_errors :
    (∀ (resp : HttpResponse) (orig : RGBImage), resp.status_code ≠ 200 →
      ∃ msg, query_image resp = .error msg ∧
        (∃ a b, msg = a ++ toString resp.status_code ++ b) ∧
        (∃ a b, msg = a ++ resp.text ++ b) ∧
        segMain orig resp = (1, [msg])) ∧
    (∀ resp : HttpResponse, resp.status_code = 200 →
      query_image resp = .ok resp.jsonBody) := by
  constructor
  · intro resp orig h
    refine ⟨"Request failed: " ++ toString resp.status_code ++ ", " ++ resp.text,
      ?_, ⟨"Request failed: ", ", " ++ resp.text, ?_⟩,
      ⟨"Request failed: " ++ toString resp.status_code ++ ", ", "", ?_⟩, ?_⟩
    · simp [query_image, h]
    · exact String.append_assoc _ _ _
    · exact (String.append_empty _).symm
    · simp [segMain, query_image, h]
  · intro resp h
    simp [query_image, h]

/-- C2 witness: the mocked status-500, body `"server error"` response. -/
theorem C2_query_image_errors_witness :
    ∃ msg, query_image ⟨500, "server error", []⟩ = .error msg ∧
      (∃ a b, msg = a ++ toString (500 : Nat) ++ b) ∧
      (∃ a b, msg = a ++ "server error" ++ b) ∧
      segMain origC1 ⟨500, "server error", []⟩ = (1, [msg]) :=
  C2_query_image_errors.1 ⟨500, "server error", []⟩ origC1 (by decide)

/-- C3: `read_content` returns the empty sequence when the response lacks a
`choices` key, and for a `choices` list each of whose elements has
`message.content` it returns exactly the content strings in order; in
particular the two-choice `"a"`, `"b"` example yields `["a", "b"]`. -/
theorem C3_read_content_spec :
    read_content ⟨none⟩ = .ok [] ∧
    (∀ cs : List String,
      read_content ⟨some (cs.map fun s => ⟨some ⟨some s⟩⟩)⟩ = .ok cs) ∧
    read_content ⟨some [⟨some ⟨some "a"⟩⟩, ⟨some ⟨some "b"⟩⟩]⟩ = .ok ["a", "b"] := by
  refine ⟨rfl, ?_, rfl⟩
  intro cs
  show extractChoices (cs.map fun s => ⟨some ⟨some s⟩⟩) = .ok cs
  induction cs with
  | nil => rfl
  | cons c cs ih => simp [extractChoices, ih]

/-- C6 (counterexample): a run of the vision script in which the image file is
unreadable does not exit 0 and prints no `"Done"` sentinel — the uncaught
read error terminates the process with exit code 1. -/
theorem C6_always_exit0_counterexample :
    (visionMain ⟨false, .error "connection refused"⟩).1 ≠ 0 ∧
    "Done" ∉ (visionMain ⟨false, .error "connection refused"⟩).2 := by
  decide

/-- C6 (amended): the vision script prints each extracted result followed by
the `"Done"` sentinel and exits 0 on every run in which the image file is
readable, the HTTP call returns parseable JSON, and extraction succeeds;
a missing image file or a failed HTTP call terminates the process with exit
code 1 and no output. -/
theorem C6_exit_behavior :
    (∀ (env : VisionEnv) (resp : OpenAIResponse) (r : ChatResponse)
        (contents : List String),
      env.fileOk = true → env.http = .ok resp → resp.json = .ok r →
      read_content r = .ok contents →
      visionMain env = (0, printLines 0 contents ++ ["Done"])) ∧
    (∀ http, visionMain ⟨false, http⟩ = (1, [])) ∧
    (∀ e, visionMain ⟨true, .error e⟩ = (1, [])) := by
  refine ⟨?_, fun _ => rfl, fun _ => rfl⟩
  intro env resp r contents h1 h2 h3 h4
  simp [visionMain, h1, h2, make_text_image_request, h3, h4]

/-- C6 witness: a run with a readable file and a well-formed empty-choices
response prints just `"Done"` and exits 0. -/
theorem C6_exit_behavior_witness :
    visionMain ⟨true, .ok ⟨200, .ok ⟨some []⟩⟩⟩ = (0, ["Done"]) :=
  C6_exit_behavior.1 ⟨true, .ok ⟨200, .ok ⟨some []⟩⟩⟩ ⟨200, .ok ⟨some []⟩⟩
    ⟨some []⟩ [] rfl rfl rfl rfl

/-- C7: `make_text_image_request` returns the parsed JSON body of the HTTP
response without inspecting the status code: any two responses with the same
parsed body yield the same value, whatever their statuses. -/
theorem C7_status_not_inspected :
    (∀ resp : OpenAIResponse, make_text_image_request resp = resp.json) ∧
    (∀ r1 r2 : OpenAIResponse, r1.json = r2.json →
      make_text_image_request r1 = make_text_image_request r2) :=
  ⟨fun _ => rfl, fun _ _ h => h⟩

/-- C7 witness: a status-200 and a status-500 response with the same body
produce the same return value. -/
theorem C7_status_not_inspected_witness :
    make_text_image_request ⟨200, .ok ⟨none⟩⟩ =
      make_text_image_request ⟨500, .ok ⟨none⟩⟩ :=
  C7_status_not_inspected.2 ⟨200, .ok ⟨none⟩⟩ ⟨500, .ok ⟨none⟩⟩ rfl

/-- C4: `assignColor` reuses an existing color and otherwise hands out
`palette[len(map) % len(palette)]`, appending it to the map; processing
`["road", "sky", "road", "car"]` allocates exactly the 3 distinct colors
palette[0..2] with `"road"` reused; the loop's color map is exactly
`assignColor` run over the successfully decoded labels; and over any 11
pairwise-distinct labels the 11th receives the same color as the 1st,
namely palette[0]. -/
theorem C4_assign_color :
    (∀ (l : String) (m : List (String × RGB)), lookupColor l m = none →
      (assignColor l m).1 = palette.getD (m.length % palette.length) (0, 0, 0) ∧
      (assignColor l m).2 = m ++ [(l, (assignColor l m).1)]) ∧
    (∀ (l : String) (m : List (String × RGB)) (c : RGB),
      lookupColor l m = some c → assignColor l m = (c, m)) ∧
    runLabels ["road", "sky", "road", "car"] [] =
      ([(230, 25, 75), (60, 180, 75), (230, 25, 75), (255, 225, 25)],
       [("road", (230, 25, 75)), ("sky", (60, 180, 75)), ("car", (255, 225, 25))]) ∧
    ([(230, 25, 75), (60, 180, 75), (255, 225, 25)] : List RGB).Nodup ∧
    (∀ (rs : List SegResult) (s : SegState),
      (rs.foldl segStep s).label_to_color =
        (runLabels (decodedLabels rs) s.label_to_color).2) ∧
    (∀ ls : List String, ls.Nodup → ls.length = 11 →
      (runLabels ls []).1.getD 10 (0, 0, 0) = (runLabels ls []).1.getD 0 (0, 0, 0) ∧
      (runLabels ls []).1.getD 0 (0, 0, 0) = palette.getD 0 (0, 0, 0)) := by
  refine ⟨?_, ?_, by decide, by decide, cmap_runLabels, ?_⟩
  · intro l m h
    rw [assignColor_of_none h]
    exact ⟨rfl, rfl⟩
  · intro l m c h
    exact assignColor_of_some h
  · intro ls hnd hlen
    have hrun := runLabels_fresh ls [] hnd (fun l _ => rfl)
    rw [hlen] at hrun
    refine ⟨?_, ?_⟩ <;> rw [hrun] <;> decide

/-- C4 witness: the general parts applied at concrete inputs — a fresh label
on the empty map, a reused label, and 11 distinct labels. -/
theorem C4_assign_color_witness :
    ((assignColor "x" []).1 =
        palette.getD ((List.length ([] : List (String × RGB))) % palette.length) (0, 0, 0) ∧
      (assignColor "x" []).2 = [] ++ [("x", (assignColor "x" []).1)]) ∧
    assignColor "road" [("road", (230, 25, 75))] = ((230, 25, 75), [("road", (230, 25, 75))]) ∧
    ((runLabels ["l0", "l1", "l2", "l3", "l4", "l5", "l6", "l7", "l8", "l9", "l10"] []).1.getD
          10 (0, 0, 0) =
        (runLabels ["l0", "l1", "l2", "l3", "l4", "l5", "l6", "l7", "l8", "l9", "l10"] []).1.getD
          0 (0, 0, 0) ∧
      (runLabels ["l0", "l1", "l2", "l3", "l4", "l5", "l6", "l7", "l8", "l9", "l10"] []).1.getD
          0 (0, 0, 0) = palette.getD 0 (0, 0, 0)) :=
  ⟨C4_assign_color.1 "x" [] rfl,
   C4_assign_color.2.1 "road" [("road", (230, 25, 75))] (230, 25, 75) rfl,
   C4_assign_color.2.2.2.2.2 ["l0", "l1", "l2", "l3", "l4", "l5", "l6", "l7", "l8", "l9", "l10"]
     (by decide) rfl⟩

/-- C5: the overlay buffer has the original image's height and width and
starts all black; after the loop each pixel holds the assigned color of the
last result (in input order) whose binary mask covers it, or black if none
does — later results overwrite earlier ones; and the blended output applies
the alpha blend exactly once, between the original image and the final
overlay. -/
theorem C5_overlay_last_write_wins (orig : RGBImage) (results : List SegResult)
    (p : String) (i j : Nat) :
    (initState orig).overlay.height = orig.height ∧
    (initState orig).overlay.width = orig.width ∧
    (initState orig).overlay.pix i j = (0, 0, 0) ∧
    ((results.foldl segStep (initState orig)).overlay).pix i j =
      (match lastCover results i j with
       | none => (0, 0, 0)
       | some l =>
         (lookupColor l
           ((results.foldl segStep (initState orig)).label_to_color)).getD (0, 0, 0)) ∧
    (plot_segmentation_map orig results p).blended.pix i j =
      blendPixel (orig.pix i j)
        (((results.foldl segStep (initState orig)).overlay).pix i j) := by
  refine ⟨rfl, rfl, rfl, ?_, rfl⟩
  have h := fold_overlay_lastCover results (initState orig) i j
  rcases hlast : lastCover results i j with _ | l <;> rw [hlast] at h <;> exact h

/-- C8: an entry whose mask is neither a base64 string nor a decoded image is
skipped after its diagnostic is printed: the blended image and the legend are
exactly those of the run without that entry, the rest of the entries are
still processed, and the run completes (the save message is still printed,
as part of the printed suffix `b`). -/
theorem C8_unexpected_mask_skipped (orig : RGBImage) (pre post : List SegResult)
    (lab : Option String) (t p : String) :
    (plot_segmentation_map orig (pre ++ ⟨lab, .other t⟩ :: post) p).blended
      = (plot_segmentation_map orig (pre ++ post) p).blended ∧
    (plot_segmentation_map orig (pre ++ ⟨lab, .other t⟩ :: post) p).legend
      = (plot_segmentation_map orig (pre ++ post) p).legend ∧
    ∃ a b, (plot_segmentation_map orig (pre ++ ⟨lab, .other t⟩ :: post) p).printed
        = a ++ ("Unexpected mask type for " ++ lab.getD "unknown" ++ ": " ++ t) :: b ∧
      (plot_segmentation_map orig (pre ++ post) p).printed = a ++ b := by
  have h1 : (pre ++ ⟨lab, MaskData.other t⟩ :: post).foldl segStep (initState orig)
      = post.foldl segStep
          ⟨(pre.foldl segStep (initState orig)).overlay,
           (pre.foldl segStep (initState orig)).label_to_color,
           (pre.foldl segStep (initState orig)).printed ++
             ["Unexpected mask type for " ++ lab.getD "unknown" ++ ": " ++ t]⟩ := by
    rw [List.foldl_append, List.foldl_cons, segStep_other]
  have h2 : (pre ++ post).foldl segStep (initState orig)
      = post.foldl segStep
          ⟨(pre.foldl segStep (initState orig)).overlay,
           (pre.foldl segStep (initState orig)).label_to_color,
           (pre.foldl segStep (initState orig)).printed⟩ := by
    rw [List.foldl_append]
  obtain ⟨hov, hcm, d, hp, hp'⟩ :=
    fold_printed_shift post (pre.foldl segStep (initState orig)).overlay
      (pre.foldl segStep (initState orig)).label_to_color
      ((pre.foldl segStep (initState orig)).printed ++
        ["Unexpected mask type for " ++ lab.getD "unknown" ++ ": " ++ t])
      (pre.foldl segStep (initState orig)).printed
  refine ⟨?_, ?_, (pre.foldl segStep (initState orig)).printed,
    d ++ ["Segmentation map saved as " ++ p], ?_, ?_⟩
  · rw [plot_blended, plot_blended, h1, h2, hov]
  · rw [plot_legend, plot_legend, h1, h2, hcm]
  · rw [plot_printed, h1, hp]
    simp
  · rw [plot_printed, h2, hp']
    simp

/-- C9: the legend (the final label-to-color map) holds exactly the labels of
entries whose mask decoded successfully, in order of first successful decode:
a label all of whose entries were skipped gets no entry, while a label whose
decoded mask has no foreground pixels (no pixel above the 128 threshold)
still gets one. -/
theorem C9_legend_exactly_decoded :
    (∀ (orig : RGBImage) (results : List SegResult) (p : String),
      ((plot_segmentation_map orig results p).legend).map Prod.fst
        = firstSeen (decodedLabels results)) ∧
    (∀ (orig : RGBImage) (results : List SegResult) (p : String) (l : String),
      l ∈ ((plot_segmentation_map orig results p).legend).map Prod.fst ↔
        l ∈ decodedLabels results) ∧
    (∀ (orig : RGBImage) (pre post : List SegResult) (lab : Option String)
        (g : GrayImage) (p : String),
      lab.getD "unknown" ∈
        ((plot_segmentation_map orig (pre ++ ⟨lab, .img g⟩ :: post) p).legend).map
          Prod.fst) := by
  have key : ∀ (orig : RGBImage) (results : List SegResult) (p : String),
      ((plot_segmentation_map orig results p).legend).map Prod.fst
        = firstSeen (decodedLabels results) := by
    intro orig results p
    rw [plot_legend, fold_cmap_keys]
    rfl
  have mem_key : ∀ (orig : RGBImage) (results : List SegResult) (p : String) (l : String),
      l ∈ ((plot_segmentation_map orig results p).legend).map Prod.fst ↔
        l ∈ decodedLabels results := by
    intro orig results p l
    rw [key]
    show l ∈ (decodedLabels results).foldl insertNew [] ↔ _
    rw [mem_foldl_insertNew]
    simp
  refine ⟨key, mem_key, ?_⟩
  intro orig pre post lab g p
  rw [mem_key]
  simp [decodedLabels_append, decodedLabels]

/-- C10: an entry with no `label` field is processed exactly as if it were
labeled `"unknown"` — same overlay, color map and output — and with a
decodable mask the name `"unknown"` enters the color map (hence the legend)
rather than the entry being skipped. -/
theorem C10_missing_label_unknown :
    (∀ (s : SegState) (m : MaskData),
      segStep s ⟨none, m⟩ = segStep s ⟨some "unknown", m⟩) ∧
    (∀ (s : SegState) (g : GrayImage),
      "unknown" ∈ ((segStep s ⟨none, .b64 g⟩).label_to_color).map Prod.fst) := by
  constructor
  · intro s m
    cases m <;> rfl
  · intro s g
    exact assignColor_mem "unknown" s.label_to_color

end QuickAI
